import Mathlib

/-!
Verification of the single-producer/single-consumer circular buffer in
src/ThreadSafeCircularBuffer/ThreadSafeCircularBuffer.h (classes
cBufferElement and cThreadSafeCircularBuffer).

Modelling conventions:
* uint32_t members and parameters are modelled as Nat values kept below
  2^32; every arithmetic operation the C++ code performs on a uint32_t is
  followed by an explicit reduction mod 2^32 (u32Mod).
* size_t values (vector sizes) are modelled as Nat; the one place the code
  computes size() - 1 in size_t is reduced mod 2^64 (u64Mod).
* return type unsigned short truncates mod 2^16 (u16Mod).
* std::vector is modelled as List; vector resize keeps the first
  min(old, new) entries and value-initializes the rest.
* The mutex serializes every cursor/level mutation, so each member
  function is modelled as a pure state transformer executed atomically.
  Functions that call notify_one additionally return the number of
  notifications issued on each condition variable (Notifs).
* boost timed_wait(lock, milliseconds(t)) is modelled by timedWaitOk: it
  succeeds iff the first notification of the condition arrives strictly
  before t milliseconds elapse; the blocking acquire functions take the
  arrival time of that first notification as an explicit oracle argument.
-/

namespace AVN

/-- The modulus 2^32 of the C type uint32_t. -/
def u32Mod : Nat := 4294967296

/-- The modulus 2^16 of the C type unsigned short. -/
def u16Mod : Nat := 65536

/-- The modulus 2^64 of the C type size_t on the 64-bit targets. -/
def u64Mod : Nat := 18446744073709551616

/-- The value UINT_MAX, the default timeout argument of getNextReadIndex
and getNextWriteIndex. -/
def UINT_MAX : Nat := 4294967295

/-- One slot of the ring: fixed-capacity storage plus the
(start index, size) span of currently valid data.  Mirrors struct
cBufferElement of the header. -/
structure cBufferElement (T : Type) where
  m_vTElement : List T
  m_u32DataStartIndex : Nat
  m_u32DataSize : Nat
  deriving DecidableEq

namespace cBufferElement

variable {T : Type}

/-- Member resize: m_vTElement.resize(u32NSamples).  vector resize keeps
the first min(old, new) entries and value-initializes the rest; the
argument d models the value of a freshly value-initialized T. -/
def resize (e : cBufferElement T) (u32NSamples : Nat) (d : T) : cBufferElement T :=
  { e with m_vTElement :=
      e.m_vTElement.take u32NSamples ++
        List.replicate (u32NSamples - e.m_vTElement.length) d }

/-- Member setEmpty: m_u32DataSize = 0; m_u32DataStartIndex = 0. -/
def setEmpty (e : cBufferElement T) : cBufferElement T :=
  { e with m_u32DataSize := 0, m_u32DataStartIndex := 0 }

/-- Member setDataSpan(u32StartIndex, u32Size): stores both uint32_t
arguments directly into the span fields. -/
def setDataSpan (e : cBufferElement T) (u32StartIndex u32Size : Nat) : cBufferElement T :=
  { e with m_u32DataSize := u32Size % u32Mod,
           m_u32DataStartIndex := u32StartIndex % u32Mod }

/-- Member setFull: m_u32DataSize = m_vTElement.size();
m_u32DataStartIndex = 0 (size_t narrowed to uint32_t). -/
def setFull (e : cBufferElement T) : cBufferElement T :=
  { e with m_u32DataSize := e.m_vTElement.length % u32Mod,
           m_u32DataStartIndex := 0 }

/-- Member setDataUsed(u32Size): m_u32DataSize -= u32Size;
m_u32DataStartIndex += u32Size, both in uint32_t arithmetic. -/
def setDataUsed (e : cBufferElement T) (u32Size : Nat) : cBufferElement T :=
  { e with m_u32DataSize := (e.m_u32DataSize + u32Mod - u32Size % u32Mod) % u32Mod,
           m_u32DataStartIndex := (e.m_u32DataStartIndex + u32Size % u32Mod) % u32Mod }

/-- Member setDataAdded(u32Size): m_u32DataSize += u32Size in uint32_t
arithmetic. -/
def setDataAdded (e : cBufferElement T) (u32Size : Nat) : cBufferElement T :=
  { e with m_u32DataSize := (e.m_u32DataSize + u32Size % u32Mod) % u32Mod }

/-- Member allocationSize: returns m_vTElement.size(), but through return
type unsigned short, so the size_t length is truncated mod 2^16. -/
def allocationSize (e : cBufferElement T) : Nat :=
  e.m_vTElement.length % u16Mod

/-- Member dataSize: returns the uint32_t field m_u32DataSize, but through
return type unsigned short, so the value is truncated mod 2^16. -/
def dataSize (e : cBufferElement T) : Nat :=
  e.m_u32DataSize % u16Mod

end cBufferElement

/-- State of class cThreadSafeCircularBuffer: the slot vector, the
parallel timestamp vector, the two cursors and the occupancy counter.
The mutex and the two condition variables carry no ring state of their
own and are modelled by the atomicity of each transformer plus the
Notifs outputs. -/
structure cThreadSafeCircularBuffer (T : Type) where
  m_vTCircularBuffer : List (cBufferElement T)
  m_vi64Timestamps_us : List Int
  m_u32ReadIndex : Nat
  m_u32WriteIndex : Nat
  m_u32Level : Nat
  deriving DecidableEq

/-- Number of notify_one calls a member function issues on each of the two
condition variables m_oConditionReadPossible / m_oConditionWritePossible. -/
structure Notifs where
  nReadPossible : Nat
  nWritePossible : Nat
  deriving DecidableEq

/-- Outcome of a blocking acquire call: the index was returned without
entering the wait branch, or after a successful timed wait, or the wait
timed out (the function then returns -1). -/
inductive AcqRes where
  | immediate (i : Int)
  | afterWait (i : Int)
  | timedOut
  deriving DecidableEq

/-- The int32_t value an AcqRes stands for. -/
def AcqRes.toInt : AcqRes → Int
  | AcqRes.immediate i => i
  | AcqRes.afterWait i => i
  | AcqRes.timedOut => -1

/-- Model of boost timed_wait(lock, milliseconds(u32Timeout_ms)): the wait
succeeds iff the first notification of the condition arrives strictly
before u32Timeout_ms milliseconds elapse; firstSignal_ms = none means the
condition is never notified. -/
def timedWaitOk (u32Timeout_ms : Nat) (firstSignal_ms : Option Nat) : Bool :=
  match firstSignal_ms with
  | none => false
  | some t => decide (t < u32Timeout_ms)

namespace cThreadSafeCircularBuffer

variable {T : Type}

/-- Member resize(nElements, uiElementSize): resizes the slot vector and
the timestamp vector to nElements entries, then resizes every slot's
storage to uiElementSize.  int64_t growth entries are value-initialized
to 0; dElem models a freshly default-constructed cBufferElement (empty
storage vector; in C++ its two POD span fields are indeterminate, and no
theorem below depends on their values).  Note the function touches
neither m_u32ReadIndex, m_u32WriteIndex nor m_u32Level. -/
def resize (s : cThreadSafeCircularBuffer T) (nElements uiElementSize : Nat)
    (d : T) (dElem : cBufferElement T) : cThreadSafeCircularBuffer T :=
  let buf := s.m_vTCircularBuffer.take nElements ++
    List.replicate (nElements - s.m_vTCircularBuffer.length) dElem
  { s with
    m_vTCircularBuffer := buf.map (fun e => e.resize uiElementSize d),
    m_vi64Timestamps_us := s.m_vi64Timestamps_us.take nElements ++
      List.replicate (nElements - s.m_vi64Timestamps_us.length) (0 : Int) }

/-- The constructor cThreadSafeCircularBuffer(u32NElements, u32ElementSize):
the member initializer list sets both cursors and the level to 0, the
vectors start empty, then the body calls resize. -/
def construct (u32NElements u32ElementSize : Nat) (d : T) (dElem : cBufferElement T) :
    cThreadSafeCircularBuffer T :=
  resize { m_vTCircularBuffer := [], m_vi64Timestamps_us := [],
           m_u32ReadIndex := 0, m_u32WriteIndex := 0, m_u32Level := 0 }
    u32NElements u32ElementSize d dElem

/-- Member getNextReadIndex(u32Timeout_ms = UINT_MAX): if the level is 0,
performs a timed wait on the read-possible condition and returns -1 when
it times out; otherwise (and after a successful wait) returns
m_u32ReadIndex.  Only the consumer mutates m_u32ReadIndex, so reading it
after the wait yields the same value as before the wait. -/
def getNextReadIndexR (s : cThreadSafeCircularBuffer T) (u32Timeout_ms : Nat)
    (firstSignal_ms : Option Nat) : AcqRes :=
  if s.m_u32Level = 0 then
    if timedWaitOk u32Timeout_ms firstSignal_ms then
      AcqRes.afterWait (s.m_u32ReadIndex : Int)
    else AcqRes.timedOut
  else AcqRes.immediate (s.m_u32ReadIndex : Int)

/-- The int32_t return value of getNextReadIndex. -/
def getNextReadIndex (s : cThreadSafeCircularBuffer T) (u32Timeout_ms : Nat)
    (firstSignal_ms : Option Nat) : Int :=
  (getNextReadIndexR s u32Timeout_ms firstSignal_ms).toInt

/-- getNextReadIndex paired with the ring state after the call.  The
member function body contains no assignment to any member, so the state
component is the input state. -/
def getNextReadIndexS (s : cThreadSafeCircularBuffer T) (u32Timeout_ms : Nat)
    (firstSignal_ms : Option Nat) : AcqRes × cThreadSafeCircularBuffer T :=
  (getNextReadIndexR s u32Timeout_ms firstSignal_ms, s)

/-- Member getNextWriteIndex(u32Timeout_ms = UINT_MAX): if the level has
reached the slot count, performs a timed wait on the write-possible
condition and returns -1 when it times out; otherwise (and after a
successful wait) returns m_u32WriteIndex. -/
def getNextWriteIndexR (s : cThreadSafeCircularBuffer T) (u32Timeout_ms : Nat)
    (firstSignal_ms : Option Nat) : AcqRes :=
  if s.m_vTCircularBuffer.length ≤ s.m_u32Level then
    if timedWaitOk u32Timeout_ms firstSignal_ms then
      AcqRes.afterWait (s.m_u32WriteIndex : Int)
    else AcqRes.timedOut
  else AcqRes.immediate (s.m_u32WriteIndex : Int)

/-- The int32_t return value of getNextWriteIndex. -/
def getNextWriteIndex (s : cThreadSafeCircularBuffer T) (u32Timeout_ms : Nat)
    (firstSignal_ms : Option Nat) : Int :=
  (getNextWriteIndexR s u32Timeout_ms firstSignal_ms).toInt

/-- getNextWriteIndex paired with the ring state after the call; the body
contains no assignment to any member. -/
def getNextWriteIndexS (s : cThreadSafeCircularBuffer T) (u32Timeout_ms : Nat)
    (firstSignal_ms : Option Nat) : AcqRes × cThreadSafeCircularBuffer T :=
  (getNextWriteIndexR s u32Timeout_ms firstSignal_ms, s)

/-- Member tryToGetNextWriteIndex: returns -1 when the level has reached
the slot count, otherwise m_u32WriteIndex; it never waits. -/
def tryToGetNextWriteIndex (s : cThreadSafeCircularBuffer T) : Int :=
  if s.m_vTCircularBuffer.length ≤ s.m_u32Level then -1
  else (s.m_u32WriteIndex : Int)

/-- tryToGetNextWriteIndex paired with the ring state after the call; the
body contains no assignment to any member. -/
def tryToGetNextWriteIndexS (s : cThreadSafeCircularBuffer T) :
    Int × cThreadSafeCircularBuffer T :=
  (tryToGetNextWriteIndex s, s)

/-- Member elementRead (the commit of a read): calls setEmpty on the slot
at m_u32ReadIndex, decrements m_u32Level (uint32_t), increments
m_u32ReadIndex (uint32_t) wrapping to 0 at the slot count, and issues one
notify_one on the write-possible condition when the new level equals
size() - 1 (size_t arithmetic). -/
def elementRead (s : cThreadSafeCircularBuffer T) :
    cThreadSafeCircularBuffer T × Notifs :=
  let buf := List.modify cBufferElement.setEmpty s.m_u32ReadIndex s.m_vTCircularBuffer
  let lvl := (s.m_u32Level + u32Mod - 1) % u32Mod
  let r0 := (s.m_u32ReadIndex + 1) % u32Mod
  let r := if buf.length ≤ r0 then 0 else r0
  ({ s with m_vTCircularBuffer := buf, m_u32Level := lvl, m_u32ReadIndex := r },
   if lvl = (buf.length + u64Mod - 1) % u64Mod then
     { nReadPossible := 0, nWritePossible := 1 }
   else { nReadPossible := 0, nWritePossible := 0 })

/-- Member elementWritten (the commit of a write): increments m_u32Level
(uint32_t) and m_u32WriteIndex (uint32_t) wrapping to 0 at the slot
count, and issues one notify_one on the read-possible condition when the
new level equals 1. -/
def elementWritten (s : cThreadSafeCircularBuffer T) :
    cThreadSafeCircularBuffer T × Notifs :=
  let lvl := (s.m_u32Level + 1) % u32Mod
  let w0 := (s.m_u32WriteIndex + 1) % u32Mod
  let w := if s.m_vTCircularBuffer.length ≤ w0 then 0 else w0
  ({ s with m_u32Level := lvl, m_u32WriteIndex := w },
   if lvl = 1 then { nReadPossible := 1, nWritePossible := 0 }
   else { nReadPossible := 0, nWritePossible := 0 })

/-- Member getLevel. -/
def getLevel (s : cThreadSafeCircularBuffer T) : Nat := s.m_u32Level

/-- Member getNElements. -/
def getNElements (s : cThreadSafeCircularBuffer T) : Nat :=
  s.m_vTCircularBuffer.length

/-- Member setElementTimestamp(uiIndex, i64Timestamp_us). -/
def setElementTimestamp (s : cThreadSafeCircularBuffer T) (uiIndex : Nat)
    (i64Timestamp_us : Int) : cThreadSafeCircularBuffer T :=
  { s with m_vi64Timestamps_us := s.m_vi64Timestamps_us.set uiIndex i64Timestamp_us }

/-- Member getElementTimestamp_us(uiIndex); out-of-range access is
undefined behavior in the source, modelled as returning 0. -/
def getElementTimestamp_us (s : cThreadSafeCircularBuffer T) (uiIndex : Nat) : Int :=
  s.m_vi64Timestamps_us.getD uiIndex 0

/-- Member clear: zeroes both cursors and the level, then a single loop
over the slot count calls setEmpty on every slot and stores 0 into the
timestamp entry of the same index, and finally issues exactly one
notify_one on the write-possible condition (and none on read-possible). -/
def clear (s : cThreadSafeCircularBuffer T) :
    cThreadSafeCircularBuffer T × Notifs :=
  let n := s.m_vTCircularBuffer.length
  ({ s with
     m_u32ReadIndex := 0, m_u32WriteIndex := 0, m_u32Level := 0,
     m_vTCircularBuffer := s.m_vTCircularBuffer.map cBufferElement.setEmpty,
     m_vi64Timestamps_us :=
       (s.m_vi64Timestamps_us.take n).map (fun _ => (0 : Int)) ++
         s.m_vi64Timestamps_us.drop n },
   { nReadPossible := 0, nWritePossible := 1 })

end cThreadSafeCircularBuffer

/-- A commit operation of one of the two roles; acquires mutate nothing
(see getNextReadIndexS / getNextWriteIndexS), so the evolution of the
ring state under any producer/consumer interleaving is the sequence of
its commits. -/
inductive Op where
  | commitWrite
  | commitRead
  deriving DecidableEq

variable {T : Type}

/-- The state transformation of one commit. -/
def applyOp (s : cThreadSafeCircularBuffer T) : Op → cThreadSafeCircularBuffer T
  | Op.commitWrite => (s.elementWritten).1
  | Op.commitRead => (s.elementRead).1

/-- The acquire-before-commit discipline along a trace: a commitWrite is
preceded by a successful acquireWrite, hence happens with the ring not
full; a commitRead happens with the ring not empty. -/
def validTraceB (s : cThreadSafeCircularBuffer T) : List Op → Bool
  | [] => true
  | Op.commitWrite :: t =>
      decide (s.m_u32Level < s.m_vTCircularBuffer.length) &&
        validTraceB (applyOp s Op.commitWrite) t
  | Op.commitRead :: t =>
      decide (0 < s.m_u32Level) && validTraceB (applyOp s Op.commitRead) t

/-- The ring state after a trace of commits. -/
def runTrace (s : cThreadSafeCircularBuffer T) : List Op → cThreadSafeCircularBuffer T
  | [] => s
  | op :: t => runTrace (applyOp s op) t

/-- The slot indices handed to the producer, in commit order: the value of
m_u32WriteIndex at each commitWrite (the index the preceding successful
acquireWrite returned). -/
def writeSeq (s : cThreadSafeCircularBuffer T) : List Op → List Nat
  | [] => []
  | Op.commitWrite :: t => s.m_u32WriteIndex :: writeSeq (applyOp s Op.commitWrite) t
  | Op.commitRead :: t => writeSeq (applyOp s Op.commitRead) t

/-- The slot indices delivered to the consumer, in commit order: the value
of m_u32ReadIndex at each commitRead (the index the preceding successful
acquireRead returned). -/
def readSeq (s : cThreadSafeCircularBuffer T) : List Op → List Nat
  | [] => []
  | Op.commitWrite :: t => readSeq (applyOp s Op.commitWrite) t
  | Op.commitRead :: t => s.m_u32ReadIndex :: readSeq (applyOp s Op.commitRead) t

/-- Number of commitWrite steps in a trace. -/
def countWrites : List Op → Nat
  | [] => 0
  | Op.commitWrite :: t => countWrites t + 1
  | Op.commitRead :: t => countWrites t

/-- Number of commitRead steps in a trace. -/
def countReads : List Op → Nat
  | [] => 0
  | Op.commitWrite :: t => countReads t
  | Op.commitRead :: t => countReads t + 1

/-- A freshly default-constructed cBufferElement over Int with its span
fields taken as 0 (in C++ they are indeterminate; no theorem depends on
them). -/
def dElemZero : cBufferElement Int :=
  { m_vTElement := [], m_u32DataStartIndex := 0, m_u32DataSize := 0 }

/-- A concrete ring of 3 slots of capacity 4 over Int. -/
def demoRing : cThreadSafeCircularBuffer Int :=
  cThreadSafeCircularBuffer.construct 3 4 0 dElemZero

/-- demoRing after two write commits. -/
def demoAfterTwoWrites : cThreadSafeCircularBuffer Int :=
  ((demoRing.elementWritten).1.elementWritten).1

/-- demoAfterTwoWrites after one read commit. -/
def demoAfterRead : cThreadSafeCircularBuffer Int :=
  ((demoAfterTwoWrites).elementRead).1

/-- demoRing filled to its capacity of 3. -/
def demoFull : cThreadSafeCircularBuffer Int :=
  ((demoAfterTwoWrites).elementWritten).1

/-- A ring constructed with 0 slots. -/
def zeroRing : cThreadSafeCircularBuffer Int :=
  cThreadSafeCircularBuffer.construct 0 4 0 dElemZero

/-- A slot whose storage capacity is 65536 and whose span was set by
setDataSpan(0, 65536), within bounds. -/
def bigElement : cBufferElement Int :=
  cBufferElement.setDataSpan
    { m_vTElement := List.replicate 65536 0, m_u32DataStartIndex := 0, m_u32DataSize := 0 }
    0 65536

/-! ### Helper lemmas -/

lemma succ_mod (a N : Nat) : (a % N + 1) % N = (a + 1) % N :=
  (Nat.mod_modEq a N).add_right 1

lemma elementWritten_spec (s : cThreadSafeCircularBuffer T)
    (hlen : s.m_vTCircularBuffer.length < u32Mod)
    (hlev : s.m_u32Level < s.m_vTCircularBuffer.length)
    (hw : s.m_u32WriteIndex < s.m_vTCircularBuffer.length) :
    (s.elementWritten).1.m_u32Level = s.m_u32Level + 1 ∧
    (s.elementWritten).1.m_u32WriteIndex =
      (s.m_u32WriteIndex + 1) % s.m_vTCircularBuffer.length ∧
    (s.elementWritten).1.m_vTCircularBuffer = s.m_vTCircularBuffer ∧
    (s.elementWritten).1.m_u32ReadIndex = s.m_u32ReadIndex ∧
    (s.elementWritten).1.m_vi64Timestamps_us = s.m_vi64Timestamps_us := by
  have h2 : (s.m_u32WriteIndex + 1) % u32Mod = s.m_u32WriteIndex + 1 :=
    Nat.mod_eq_of_lt (by simp only [u32Mod] at *; omega)
  refine ⟨?_, ?_, rfl, rfl, rfl⟩
  · show (s.m_u32Level + 1) % u32Mod = s.m_u32Level + 1
    exact Nat.mod_eq_of_lt (by simp only [u32Mod] at *; omega)
  · show (if s.m_vTCircularBuffer.length ≤ (s.m_u32WriteIndex + 1) % u32Mod then 0
        else (s.m_u32WriteIndex + 1) % u32Mod) =
      (s.m_u32WriteIndex + 1) % s.m_vTCircularBuffer.length
    rw [h2]
    by_cases hc : s.m_vTCircularBuffer.length ≤ s.m_u32WriteIndex + 1
    · rw [if_pos hc]
      have hEq : s.m_u32WriteIndex + 1 = s.m_vTCircularBuffer.length := by omega
      rw [hEq, Nat.mod_self]
    · rw [if_neg hc]
      exact (Nat.mod_eq_of_lt (by omega)).symm

lemma elementRead_spec (s : cThreadSafeCircularBuffer T)
    (hpos : 0 < s.m_u32Level) (hlev : s.m_u32Level < u32Mod)
    (hlen : s.m_vTCircularBuffer.length < u32Mod)
    (hr : s.m_u32ReadIndex < s.m_vTCircularBuffer.length) :
    (s.elementRead).1.m_u32Level = s.m_u32Level - 1 ∧
    (s.elementRead).1.m_u32ReadIndex =
      (s.m_u32ReadIndex + 1) % s.m_vTCircularBuffer.length ∧
    (s.elementRead).1.m_vTCircularBuffer =
      List.modify cBufferElement.setEmpty s.m_u32ReadIndex s.m_vTCircularBuffer ∧
    (s.elementRead).1.m_vTCircularBuffer.length = s.m_vTCircularBuffer.length ∧
    (s.elementRead).1.m_u32WriteIndex = s.m_u32WriteIndex ∧
    (s.elementRead).1.m_vi64Timestamps_us = s.m_vi64Timestamps_us := by
  have hlm : (List.modify cBufferElement.setEmpty s.m_u32ReadIndex
      s.m_vTCircularBuffer).length = s.m_vTCircularBuffer.length :=
    List.length_modify ..
  have h2 : (s.m_u32ReadIndex + 1) % u32Mod = s.m_u32ReadIndex + 1 :=
    Nat.mod_eq_of_lt (by simp only [u32Mod] at *; omega)
  refine ⟨?_, ?_, rfl, hlm, rfl, rfl⟩
  · show (s.m_u32Level + u32Mod - 1) % u32Mod = s.m_u32Level - 1
    simp only [u32Mod] at *
    omega
  · show (if (List.modify cBufferElement.setEmpty s.m_u32ReadIndex
          s.m_vTCircularBuffer).length ≤ (s.m_u32ReadIndex + 1) % u32Mod then 0
        else (s.m_u32ReadIndex + 1) % u32Mod) =
      (s.m_u32ReadIndex + 1) % s.m_vTCircularBuffer.length
    rw [h2, hlm]
    by_cases hc : s.m_vTCircularBuffer.length ≤ s.m_u32ReadIndex + 1
    · rw [if_pos hc]
      have hEq : s.m_u32ReadIndex + 1 = s.m_vTCircularBuffer.length := by omega
      rw [hEq, Nat.mod_self]
    · rw [if_neg hc]
      exact (Nat.mod_eq_of_lt (by omega)).symm

lemma construct_length (n sz : Nat) (d : T) (dElem : cBufferElement T) :
    (cThreadSafeCircularBuffer.construct n sz d dElem).m_vTCircularBuffer.length = n := by
  simp [cThreadSafeCircularBuffer.construct, cThreadSafeCircularBuffer.resize]

lemma construct_ts_length (n sz : Nat) (d : T) (dElem : cBufferElement T) :
    (cThreadSafeCircularBuffer.construct n sz d dElem).m_vi64Timestamps_us.length = n := by
  simp [cThreadSafeCircularBuffer.construct, cThreadSafeCircularBuffer.resize]

lemma construct_level (n sz : Nat) (d : T) (dElem : cBufferElement T) :
    (cThreadSafeCircularBuffer.construct n sz d dElem).m_u32Level = 0 := rfl

lemma construct_readIndex (n sz : Nat) (d : T) (dElem : cBufferElement T) :
    (cThreadSafeCircularBuffer.construct n sz d dElem).m_u32ReadIndex = 0 := rfl

lemma construct_writeIndex (n sz : Nat) (d : T) (dElem : cBufferElement T) :
    (cThreadSafeCircularBuffer.construct n sz d dElem).m_u32WriteIndex = 0 := rfl

/-- The characterizing invariant of a ring that has performed a writes and
b reads since construction into an N-slot ring. -/
def Good (s : cThreadSafeCircularBuffer T) (N a b : Nat) : Prop :=
  s.m_vTCircularBuffer.length = N ∧ b ≤ a ∧ a - b ≤ N ∧
  s.m_u32Level = a - b ∧ s.m_u32WriteIndex = a % N ∧ s.m_u32ReadIndex = b % N

lemma good_construct (n sz : Nat) (d : T) (dElem : cBufferElement T) :
    Good (cThreadSafeCircularBuffer.construct n sz d dElem) n 0 0 := by
  refine ⟨construct_length n sz d dElem, Nat.le_refl 0, by omega, ?_, ?_, ?_⟩ <;>
    simp [construct_level, construct_readIndex, construct_writeIndex]

lemma trace_char (N : Nat) (hN : N < u32Mod) :
    ∀ (t : List Op) (s : cThreadSafeCircularBuffer T) (a b : Nat),
      Good s N a b → validTraceB s t = true →
      (Good (runTrace s t) N (a + countWrites t) (b + countReads t) ∧
       writeSeq s t = (List.range' a (countWrites t)).map (fun k => k % N) ∧
       readSeq s t = (List.range' b (countReads t)).map (fun k => k % N)) := by
  intro t
  induction t with
  | nil =>
      intro s a b hg _
      exact ⟨by simpa [runTrace, countWrites, countReads] using hg, rfl, rfl⟩
  | cons op t ih =>
      intro s a b hg hv
      obtain ⟨hlenN, hba, habN, hlevel, hwi, hri⟩ := hg
      cases op with
      | commitWrite =>
          simp only [validTraceB, Bool.and_eq_true, decide_eq_true_eq, applyOp] at hv
          obtain ⟨hlt, hv⟩ := hv
          have habltN : a - b < N := by rw [hlevel, hlenN] at hlt; exact hlt
          have hNpos : 0 < N := by omega
          obtain ⟨hl1, hw1, hb1, hr1, ht1⟩ := elementWritten_spec s
            (by omega) hlt (by rw [hwi, hlenN]; exact Nat.mod_lt a hNpos)
          have hg2 : Good (s.elementWritten).1 N (a + 1) b := by
            refine ⟨by rw [hb1]; exact hlenN, by omega, by omega, ?_, ?_, ?_⟩
            · rw [hl1, hlevel]; omega
            · rw [hw1, hwi, hlenN, succ_mod]
            · rw [hr1, hri]
          obtain ⟨hgF, hws, hrs⟩ := ih (s.elementWritten).1 (a + 1) b hg2 hv
          refine ⟨?_, ?_, ?_⟩
          · simp only [runTrace, countWrites, countReads, applyOp]
            have hA : a + (countWrites t + 1) = (a + 1) + countWrites t := by omega
            rw [hA]
            exact hgF
          · simp only [writeSeq, countWrites, applyOp]
            rw [List.range'_succ, List.map_cons, hwi, hws]
          · simp only [readSeq, countReads, applyOp]
            exact hrs
      | commitRead =>
          simp only [validTraceB, Bool.and_eq_true, decide_eq_true_eq, applyOp] at hv
          obtain ⟨hlt, hv⟩ := hv
          have hblta : b < a := by rw [hlevel] at hlt; omega
          have hNpos : 0 < N := by omega
          obtain ⟨hl1, hr1, hbmod, hb1, hw1, ht1⟩ := elementRead_spec s hlt
            (by simp only [u32Mod] at *; omega)
            (by omega)
            (by rw [hri, hlenN]; exact Nat.mod_lt b hNpos)
          have hg2 : Good (s.elementRead).1 N a (b + 1) := by
            refine ⟨by rw [hb1]; exact hlenN, by omega, by omega, ?_, ?_, ?_⟩
            · rw [hl1, hlevel]; omega
            · rw [hw1, hwi]
            · rw [hr1, hri, hlenN, succ_mod]
          obtain ⟨hgF, hws, hrs⟩ := ih (s.elementRead).1 a (b + 1) hg2 hv
          refine ⟨?_, ?_, ?_⟩
          · simp only [runTrace, countWrites, countReads, applyOp]
            have hA : b + (countReads t + 1) = (b + 1) + countReads t := by omega
            rw [hA]
            exact hgF
          · simp only [writeSeq, countWrites, applyOp]
            exact hws
          · simp only [readSeq, countReads, applyOp]
            rw [List.range'_succ, List.map_cons, hri, hrs]

/-! ### Claim theorems -/

/-- C1: for every sequence of interleaved commitWrite (elementWritten) and
commitRead (elementRead) calls respecting the acquire-before-commit
discipline (validTraceB), starting from a freshly constructed ring with
N > 0 slots (N a uint32_t value, so N < 2^32), the invariant
0 ≤ level ≤ N holds after every operation (the lower bound by the Nat
type of the level) and both cursors stay in [0, N).  Quantifying over all
disciplined traces covers every prefix, hence the state after every
single operation. -/
theorem commit_discipline_invariant {T : Type} (n sz : Nat) (d : T)
    (dElem : cBufferElement T) (t : List Op) (hn : 0 < n) (hn32 : n < u32Mod)
    (hv : validTraceB (cThreadSafeCircularBuffer.construct n sz d dElem) t = true) :
    (runTrace (cThreadSafeCircularBuffer.construct n sz d dElem) t).m_u32Level ≤ n ∧
    (runTrace (cThreadSafeCircularBuffer.construct n sz d dElem) t).m_u32ReadIndex < n ∧
    (runTrace (cThreadSafeCircularBuffer.construct n sz d dElem) t).m_u32WriteIndex < n := by
  obtain ⟨⟨hlen, hba, hab, hlev, hwi, hri⟩, -, -⟩ :=
    trace_char n hn32 t _ 0 0 (good_construct n sz d dElem) hv
  refine ⟨by omega, ?_, ?_⟩
  · rw [hri]; exact Nat.mod_lt _ hn
  · rw [hwi]; exact Nat.mod_lt _ hn

theorem commit_discipline_invariant_witness :
    (runTrace (cThreadSafeCircularBuffer.construct 3 4 (0 : Int) dElemZero)
        [Op.commitWrite, Op.commitWrite, Op.commitRead]).m_u32Level ≤ 3 ∧
    (runTrace (cThreadSafeCircularBuffer.construct 3 4 (0 : Int) dElemZero)
        [Op.commitWrite, Op.commitWrite, Op.commitRead]).m_u32ReadIndex < 3 ∧
    (runTrace (cThreadSafeCircularBuffer.construct 3 4 (0 : Int) dElemZero)
        [Op.commitWrite, Op.commitWrite, Op.commitRead]).m_u32WriteIndex < 3 :=
  commit_discipline_invariant 3 4 0 dElemZero
    [Op.commitWrite, Op.commitWrite, Op.commitRead] (by decide) (by decide) (by decide)

/-- C2: in a state whose cursors are in range and whose level is bounded
by the uint32_t slot count, a successful acquireWrite (getNextWriteIndex,
taken without waiting since the ring is not full) immediately followed by
commitWrite (elementWritten) increases the level by exactly 1 and
advances the write cursor by exactly 1 mod N; symmetrically for
acquireRead/commitRead when the level is positive.  Concretely, in the
Ring(N=3, M=4) scenario, after two write commits and one read commit the
next acquireWrite returns index 2, not the just-vacated index 0. -/
theorem acquire_commit_step {T : Type} (s : cThreadSafeCircularBuffer T)
    (tw tr : Nat) (gw gr : Option Nat)
    (hlen : s.m_vTCircularBuffer.length < u32Mod)
    (hw : s.m_u32WriteIndex < s.m_vTCircularBuffer.length)
    (hr : s.m_u32ReadIndex < s.m_vTCircularBuffer.length)
    (hle : s.m_u32Level ≤ s.m_vTCircularBuffer.length) :
    (s.m_u32Level < s.m_vTCircularBuffer.length →
      s.getNextWriteIndexR tw gw = AcqRes.immediate (s.m_u32WriteIndex : Int) ∧
      (s.elementWritten).1.m_u32Level = s.m_u32Level + 1 ∧
      (s.elementWritten).1.m_u32WriteIndex =
        (s.m_u32WriteIndex + 1) % s.m_vTCircularBuffer.length) ∧
    (0 < s.m_u32Level →
      s.getNextReadIndexR tr gr = AcqRes.immediate (s.m_u32ReadIndex : Int) ∧
      (s.elementRead).1.m_u32Level = s.m_u32Level - 1 ∧
      (s.elementRead).1.m_u32ReadIndex =
        (s.m_u32ReadIndex + 1) % s.m_vTCircularBuffer.length) ∧
    (demoAfterTwoWrites.m_u32Level = 2 ∧
     demoAfterRead.m_u32Level = 1 ∧
     demoAfterRead.m_u32ReadIndex = 1 ∧
     demoAfterRead.getNextWriteIndexR UINT_MAX none = AcqRes.immediate 2 ∧
     demoAfterRead.tryToGetNextWriteIndex = 2) := by
  refine ⟨fun hfull => ?_, fun hpos => ?_, by decide⟩
  · obtain ⟨h1, h2, -, -, -⟩ := elementWritten_spec s hlen hfull hw
    refine ⟨?_, h1, h2⟩
    simp only [cThreadSafeCircularBuffer.getNextWriteIndexR]
    rw [if_neg (by omega)]
  · obtain ⟨h1, h2, -, -, -, -⟩ := elementRead_spec s hpos (by omega) hlen hr
    refine ⟨?_, h1, h2⟩
    simp only [cThreadSafeCircularBuffer.getNextReadIndexR]
    rw [if_neg (by omega)]

theorem acquire_commit_step_witness :
    demoAfterRead.getNextWriteIndexR UINT_MAX none
      = AcqRes.immediate (demoAfterRead.m_u32WriteIndex : Int) ∧
    (demoAfterRead.elementWritten).1.m_u32Level = demoAfterRead.m_u32Level + 1 ∧
    (demoAfterRead.elementWritten).1.m_u32WriteIndex =
      (demoAfterRead.m_u32WriteIndex + 1) % demoAfterRead.m_vTCircularBuffer.length :=
  (acquire_commit_step demoAfterRead UINT_MAX UINT_MAX none none
    (by decide) (by decide) (by decide) (by decide)).1 (by decide)

/-- C3: FIFO delivery.  Along any disciplined interleaving of commits from
a freshly constructed ring, the sequence of slot indices delivered to the
consumer (the read cursor at each commitRead, which by C7 is exactly what
the preceding successful acquireRead returned) is precisely the prefix of
length countReads of the sequence of slot indices committed by the
producer, in the same order, whatever the interleaving. -/
theorem fifo_delivery {T : Type} (n sz : Nat) (d : T) (dElem : cBufferElement T)
    (t : List Op) (hn32 : n < u32Mod)
    (hv : validTraceB (cThreadSafeCircularBuffer.construct n sz d dElem) t = true) :
    countReads t ≤ countWrites t ∧
    readSeq (cThreadSafeCircularBuffer.construct n sz d dElem) t =
      (writeSeq (cThreadSafeCircularBuffer.construct n sz d dElem) t).take
        (countReads t) := by
  obtain ⟨⟨-, hba, -, -, -, -⟩, hws, hrs⟩ :=
    trace_char n hn32 t _ 0 0 (good_construct n sz d dElem) hv
  have hcr : countReads t ≤ countWrites t := by omega
  refine ⟨hcr, ?_⟩
  rw [hrs, hws, ← List.range_eq_range', ← List.range_eq_range', ← List.map_take,
    List.take_range, min_eq_left hcr]

theorem fifo_delivery_witness :
    countReads [Op.commitWrite, Op.commitRead, Op.commitWrite, Op.commitWrite,
        Op.commitRead] ≤
      countWrites [Op.commitWrite, Op.commitRead, Op.commitWrite, Op.commitWrite,
        Op.commitRead] ∧
    readSeq (cThreadSafeCircularBuffer.construct 3 4 (0 : Int) dElemZero)
        [Op.commitWrite, Op.commitRead, Op.commitWrite, Op.commitWrite,
          Op.commitRead] =
      (writeSeq (cThreadSafeCircularBuffer.construct 3 4 (0 : Int) dElemZero)
          [Op.commitWrite, Op.commitRead, Op.commitWrite, Op.commitWrite,
            Op.commitRead]).take
        (countReads [Op.commitWrite, Op.commitRead, Op.commitWrite, Op.commitWrite,
          Op.commitRead]) :=
  fifo_delivery 3 4 0 dElemZero
    [Op.commitWrite, Op.commitRead, Op.commitWrite, Op.commitWrite, Op.commitRead]
    (by decide) (by decide)

/-- C4 counterexample: resize does not reinitialize the cursors or the
level.  In the reachable state after two write commits (level 2, write
cursor 2), resize(3, 4) leaves both at 2 rather than resetting them to 0
as construction does: the member function only resizes the three vectors
and never assigns m_u32ReadIndex, m_u32WriteIndex or m_u32Level. -/
theorem resize_keeps_level_counterexample :
    (demoAfterTwoWrites.resize 3 4 0 dElemZero).m_u32Level = 2 ∧
    (demoAfterTwoWrites.resize 3 4 0 dElemZero).m_u32WriteIndex = 2 ∧
    ¬ (demoAfterTwoWrites.resize 3 4 0 dElemZero).m_u32Level = 0 := by decide

/-- C4 amended: resize(n, elementCapacity) resizes the slot vector and the
timestamp vector to n entries and every slot's storage to
elementCapacity, but does not reset readIndex, writeIndex or level: all
three retain their pre-resize values (they are zeroed only by the
constructor's member initializers or by clear()). -/
theorem resize_spec {T : Type} (s : cThreadSafeCircularBuffer T) (n sz : Nat)
    (d : T) (dElem : cBufferElement T) :
    (s.resize n sz d dElem).m_u32Level = s.m_u32Level ∧
    (s.resize n sz d dElem).m_u32ReadIndex = s.m_u32ReadIndex ∧
    (s.resize n sz d dElem).m_u32WriteIndex = s.m_u32WriteIndex ∧
    (s.resize n sz d dElem).m_vTCircularBuffer.length = n ∧
    (s.resize n sz d dElem).m_vi64Timestamps_us.length = n ∧
    (∀ e ∈ (s.resize n sz d dElem).m_vTCircularBuffer, e.m_vTElement.length = sz) := by
  refine ⟨rfl, rfl, rfl, ?_, ?_, ?_⟩
  · simp only [cThreadSafeCircularBuffer.resize, List.length_map, List.length_append,
      List.length_take, List.length_replicate]
    omega
  · simp only [cThreadSafeCircularBuffer.resize, List.length_append, List.length_take,
      List.length_replicate]
    omega
  · intro e he
    simp only [cThreadSafeCircularBuffer.resize, List.mem_map] at he
    obtain ⟨e0, -, heq⟩ := he
    subst heq
    simp only [cBufferElement.resize, List.length_append, List.length_take,
      List.length_replicate]
    omega

theorem resize_spec_witness :
    (demoRing.resize 2 5 0 dElemZero).m_u32Level = demoRing.m_u32Level ∧
    (demoRing.resize 2 5 0 dElemZero).m_vTCircularBuffer.length = 2 ∧
    (∀ e ∈ (demoRing.resize 2 5 0 dElemZero).m_vTCircularBuffer,
      e.m_vTElement.length = 5) := by
  obtain ⟨h1, h2, h3, h4, h5, h6⟩ := resize_spec demoRing 2 5 0 dElemZero
  exact ⟨h1, h4, h6⟩

/-- C5 counterexample: the claim quantifies over every reachable ring
state, but for a ring constructed with 0 slots (reachable, the
constructor accepts u32NElements = 0) a subsequent acquireWrite after
clear() does not return a valid index without blocking: level = 0 is
already ≥ the slot count 0, so the call enters the wait branch and, with
the default UINT_MAX-millisecond timeout and no notification ever
arriving, returns the -1 sentinel. -/
theorem clear_zero_slots_counterexample :
    (zeroRing.clear).1.getNextWriteIndexR UINT_MAX none = AcqRes.timedOut ∧
    (zeroRing.clear).1.getNextWriteIndex UINT_MAX none = -1 := by decide

/-- C5 amended: for every ring state whose timestamp vector matches the
slot vector in length (true of every reachable state), clear() zeroes
both cursors and the level, empties every slot's span while touching
neither the slot count nor any slot's storage, zeroes every timestamp,
and issues exactly one notify_one on the write-possible condition and
none on the read-possible condition; provided the ring has at least one
slot, a subsequent acquireWrite immediately returns the valid index 0
without entering the wait branch. -/
theorem clear_spec {T : Type} (s : cThreadSafeCircularBuffer T) (tw : Nat)
    (gw : Option Nat)
    (hts : s.m_vi64Timestamps_us.length = s.m_vTCircularBuffer.length) :
    (s.clear).1.m_u32ReadIndex = 0 ∧
    (s.clear).1.m_u32WriteIndex = 0 ∧
    (s.clear).1.m_u32Level = 0 ∧
    (s.clear).1.m_vTCircularBuffer = s.m_vTCircularBuffer.map cBufferElement.setEmpty ∧
    (∀ e ∈ (s.clear).1.m_vTCircularBuffer,
      e.m_u32DataSize = 0 ∧ e.m_u32DataStartIndex = 0) ∧
    (s.clear).1.m_vTCircularBuffer.map (fun e => e.m_vTElement) =
      s.m_vTCircularBuffer.map (fun e => e.m_vTElement) ∧
    (s.clear).1.m_vTCircularBuffer.length = s.m_vTCircularBuffer.length ∧
    (s.clear).1.m_vi64Timestamps_us =
      List.replicate s.m_vTCircularBuffer.length 0 ∧
    (s.clear).2 = { nReadPossible := 0, nWritePossible := 1 } ∧
    (0 < s.m_vTCircularBuffer.length →
      (s.clear).1.getNextWriteIndexR tw gw = AcqRes.immediate 0 ∧
      (s.clear).1.tryToGetNextWriteIndex = 0) := by
  have hlen2 : (s.clear).1.m_vTCircularBuffer.length = s.m_vTCircularBuffer.length := by
    show (s.m_vTCircularBuffer.map cBufferElement.setEmpty).length = _
    exact List.length_map ..
  have hl0 : (s.clear).1.m_u32Level = 0 := rfl
  have hw0 : (s.clear).1.m_u32WriteIndex = 0 := rfl
  refine ⟨rfl, rfl, rfl, rfl, ?_, ?_, hlen2, ?_, rfl, ?_⟩
  · intro e he
    have he2 : e ∈ s.m_vTCircularBuffer.map cBufferElement.setEmpty := he
    simp only [List.mem_map] at he2
    obtain ⟨e0, -, heq⟩ := he2
    subst heq
    exact ⟨rfl, rfl⟩
  · show (s.m_vTCircularBuffer.map cBufferElement.setEmpty).map (fun e => e.m_vTElement)
        = s.m_vTCircularBuffer.map (fun e => e.m_vTElement)
    rw [List.map_map]
    rfl
  · show (s.m_vi64Timestamps_us.take s.m_vTCircularBuffer.length).map (fun _ => (0 : Int)) ++
        s.m_vi64Timestamps_us.drop s.m_vTCircularBuffer.length =
      List.replicate s.m_vTCircularBuffer.length 0
    rw [← hts, List.take_length, List.drop_length, List.append_nil, List.map_const']
  · intro hn
    constructor
    · simp only [cThreadSafeCircularBuffer.getNextWriteIndexR]
      rw [if_neg (by rw [hlen2, hl0]; omega), hw0]
      simp
    · simp only [cThreadSafeCircularBuffer.tryToGetNextWriteIndex]
      rw [if_neg (by rw [hlen2, hl0]; omega), hw0]
      simp

theorem clear_spec_witness :
    (demoAfterRead.clear).1.m_u32Level = 0 ∧
    (demoAfterRead.clear).1.m_vi64Timestamps_us =
      List.replicate demoAfterRead.m_vTCircularBuffer.length 0 ∧
    (demoAfterRead.clear).2 = { nReadPossible := 0, nWritePossible := 1 } ∧
    (demoAfterRead.clear).1.getNextWriteIndexR UINT_MAX none = AcqRes.immediate 0 ∧
    (demoAfterRead.clear).1.tryToGetNextWriteIndex = 0 := by
  obtain ⟨h1, h2, h3, h4, h5, h6, h7, h8, h9, h10⟩ :=
    clear_spec demoAfterRead UINT_MAX none (by decide)
  obtain ⟨h11, h12⟩ := h10 (by decide)
  exact ⟨h3, h8, h9, h11, h12⟩

/-- C6: tryAcquireWrite (tryToGetNextWriteIndex) returns the sentinel -1
exactly when the ring is full (level at or above the slot count, which
for a 0-slot ring holds always), otherwise returns the write cursor; it
has no wait branch and assigns no member, so it never blocks and mutates
no ring state. -/
theorem tryToGetNextWriteIndex_spec {T : Type} (s : cThreadSafeCircularBuffer T) :
    (s.tryToGetNextWriteIndex = -1 ↔ s.m_vTCircularBuffer.length ≤ s.m_u32Level) ∧
    (s.m_u32Level < s.m_vTCircularBuffer.length →
      s.tryToGetNextWriteIndex = (s.m_u32WriteIndex : Int)) ∧
    (s.tryToGetNextWriteIndexS).2 = s := by
  by_cases h : s.m_vTCircularBuffer.length ≤ s.m_u32Level
  · refine ⟨⟨fun _ => h, fun _ => ?_⟩, fun hlt => absurd h (by omega), rfl⟩
    simp only [cThreadSafeCircularBuffer.tryToGetNextWriteIndex]
    rw [if_pos h]
  · refine ⟨⟨fun he => ?_, fun hh => absurd hh h⟩, fun _ => ?_, rfl⟩
    · simp only [cThreadSafeCircularBuffer.tryToGetNextWriteIndex, if_neg h] at he
      omega
    · simp only [cThreadSafeCircularBuffer.tryToGetNextWriteIndex, if_neg h]

theorem tryToGetNextWriteIndex_spec_witness :
    demoAfterRead.tryToGetNextWriteIndex = (demoAfterRead.m_u32WriteIndex : Int) ∧
    (demoFull.tryToGetNextWriteIndex = -1 ↔
      demoFull.m_vTCircularBuffer.length ≤ demoFull.m_u32Level) :=
  ⟨(tryToGetNextWriteIndex_spec demoAfterRead).2.1 (by decide),
   (tryToGetNextWriteIndex_spec demoFull).1⟩

/-- C7: the acquire functions mutate no ring state on any return path
(their bodies assign no member, reflected by the paired state outputs
being the input state), and consequently on a non-empty ring any two
acquireRead calls without an intervening commit return the same index,
and on a non-full ring any two acquireWrite calls return the same
index. -/
theorem acquire_no_mutation {T : Type} (s : cThreadSafeCircularBuffer T)
    (t1 t2 t3 t4 : Nat) (g1 g2 g3 g4 : Option Nat) :
    (s.getNextReadIndexS t1 g1).2 = s ∧
    (s.getNextWriteIndexS t3 g3).2 = s ∧
    (s.tryToGetNextWriteIndexS).2 = s ∧
    (0 < s.m_u32Level →
      s.getNextReadIndexR t1 g1 = AcqRes.immediate (s.m_u32ReadIndex : Int) ∧
      s.getNextReadIndexR t2 g2 = AcqRes.immediate (s.m_u32ReadIndex : Int)) ∧
    (s.m_u32Level < s.m_vTCircularBuffer.length →
      s.getNextWriteIndexR t3 g3 = AcqRes.immediate (s.m_u32WriteIndex : Int) ∧
      s.getNextWriteIndexR t4 g4 = AcqRes.immediate (s.m_u32WriteIndex : Int)) := by
  refine ⟨rfl, rfl, rfl, fun hpos => ⟨?_, ?_⟩, fun hlt => ⟨?_, ?_⟩⟩ <;>
    simp only [cThreadSafeCircularBuffer.getNextReadIndexR,
      cThreadSafeCircularBuffer.getNextWriteIndexR] <;>
    rw [if_neg (by omega)]

theorem acquire_no_mutation_witness :
    (demoAfterRead.getNextReadIndexS 5 (some 1)).2 = demoAfterRead ∧
    demoAfterRead.getNextReadIndexR 5 (some 1)
      = AcqRes.immediate (demoAfterRead.m_u32ReadIndex : Int) ∧
    demoAfterRead.getNextReadIndexR 90 none
      = AcqRes.immediate (demoAfterRead.m_u32ReadIndex : Int) ∧
    demoAfterRead.getNextWriteIndexR 5 (some 1)
      = AcqRes.immediate (demoAfterRead.m_u32WriteIndex : Int) := by
  obtain ⟨h1, h2, h3, h4, h5⟩ :=
    acquire_no_mutation demoAfterRead 5 90 5 77 (some 1) none (some 1) none
  exact ⟨h1, (h4 (by decide)).1, (h4 (by decide)).2, (h5 (by decide)).1⟩

/-- C8 counterexample: a zero timeout does not wait indefinitely.  On the
freshly constructed (empty) 3-slot ring, getNextReadIndex with timeout 0
returns the -1 sentinel even though a notification arrives later (at
millisecond 10^9); and an omitted timeout is the finite default UINT_MAX
milliseconds, after which the call also returns the sentinel when the
ring stays empty forever; symmetrically for getNextWriteIndex on the
full ring. -/
theorem zero_timeout_counterexample :
    demoRing.getNextReadIndexR 0 (some 1000000000) = AcqRes.timedOut ∧
    demoRing.getNextReadIndex 0 (some 1000000000) = -1 ∧
    demoRing.getNextReadIndexR UINT_MAX none = AcqRes.timedOut ∧
    demoFull.getNextWriteIndexR 0 (some 5) = AcqRes.timedOut ∧
    demoFull.getNextWriteIndexR UINT_MAX none = AcqRes.timedOut := by decide

/-- C8 amended: the timeout argument is handed directly to the timed wait
(default UINT_MAX milliseconds when omitted), so no value waits
indefinitely: with timeout 0 an acquire on an empty (respectively full)
ring returns the -1 sentinel at once, whatever notification may come
later, and with the omitted default the sentinel is returned once the
finite UINT_MAX milliseconds elapse with no notification. -/
theorem timeout_passthrough {T : Type} (s : cThreadSafeCircularBuffer T)
    (g : Option Nat) :
    (s.m_u32Level = 0 → s.getNextReadIndexR 0 g = AcqRes.timedOut) ∧
    (s.m_vTCircularBuffer.length ≤ s.m_u32Level →
      s.getNextWriteIndexR 0 g = AcqRes.timedOut) ∧
    (s.m_u32Level = 0 → s.getNextReadIndexR UINT_MAX none = AcqRes.timedOut) ∧
    (s.m_vTCircularBuffer.length ≤ s.m_u32Level →
      s.getNextWriteIndexR UINT_MAX none = AcqRes.timedOut) := by
  have hz : ∀ h : Option Nat, timedWaitOk 0 h = false := by
    intro h
    cases h with
    | none => rfl
    | some t => simp [timedWaitOk]
  have hnone : timedWaitOk UINT_MAX none = false := rfl
  refine ⟨fun h0 => ?_, fun hf => ?_, fun h0 => ?_, fun hf => ?_⟩
  · simp [cThreadSafeCircularBuffer.getNextReadIndexR, h0, hz]
  · simp [cThreadSafeCircularBuffer.getNextWriteIndexR, hf, hz]
  · simp [cThreadSafeCircularBuffer.getNextReadIndexR, h0, hnone]
  · simp [cThreadSafeCircularBuffer.getNextWriteIndexR, hf, hnone]

theorem timeout_passthrough_witness :
    demoRing.getNextReadIndexR 0 (some 7) = AcqRes.timedOut ∧
    demoFull.getNextWriteIndexR 0 (some 7) = AcqRes.timedOut ∧
    demoFull.getNextWriteIndexR UINT_MAX none = AcqRes.timedOut := by
  obtain ⟨h1, -, -, -⟩ := timeout_passthrough demoRing (some 7)
  obtain ⟨-, h2, -, h4⟩ := timeout_passthrough demoFull (some 7)
  exact ⟨h1 (by decide), h2 (by decide), h4 (by decide)⟩

lemma dataSize_def {T : Type} (e : cBufferElement T) :
    e.dataSize = e.m_u32DataSize % u16Mod := rfl

lemma allocationSize_def {T : Type} (e : cBufferElement T) :
    e.allocationSize = e.m_vTElement.length % u16Mod := rfl

lemma bigElement_span : bigElement.m_u32DataSize = 65536 := by
  show 65536 % u32Mod = 65536
  decide

lemma bigElement_storage : bigElement.m_vTElement = List.replicate 65536 0 := rfl

/-- C9 counterexample: dataSize() and allocationSize() return through the
type unsigned short, truncating mod 2^16.  A slot with storage capacity
65536 whose span was set (within bounds) by setDataSpan(0, 65536) has
spanLength 65536 and storage length 65536, yet both queries return 0,
not the full 32-bit values. -/
theorem dataSize_truncation_counterexample :
    bigElement.m_u32DataSize = 65536 ∧ bigElement.dataSize = 0 ∧
    bigElement.m_vTElement.length = 65536 ∧ bigElement.allocationSize = 0 := by
  refine ⟨bigElement_span, ?_, ?_, ?_⟩
  · rw [dataSize_def, bigElement_span]
    decide
  · rw [bigElement_storage, List.length_replicate]
  · rw [allocationSize_def, bigElement_storage, List.length_replicate]
    decide

/-- C9 amended: dataSize() returns the slot's spanLength and
allocationSize() the storage length, both truncated to unsigned short
(mod 2^16); the values are exact precisely when they are below 65536. -/
theorem dataSize_truncated {T : Type} (e : cBufferElement T)
    (u32StartIndex u32Size : Nat) :
    (e.setDataSpan u32StartIndex u32Size).dataSize = u32Size % u32Mod % u16Mod ∧
    (u32Size < u16Mod → (e.setDataSpan u32StartIndex u32Size).dataSize = u32Size) ∧
    e.dataSize = e.m_u32DataSize % u16Mod ∧
    e.allocationSize = e.m_vTElement.length % u16Mod ∧
    (e.m_vTElement.length < u16Mod → e.allocationSize = e.m_vTElement.length) := by
  refine ⟨rfl, fun h => ?_, rfl, rfl, fun h => ?_⟩
  · show u32Size % u32Mod % u16Mod = u32Size
    have h32 : u32Size % u32Mod = u32Size :=
      Nat.mod_eq_of_lt (by simp only [u32Mod, u16Mod] at *; omega)
    rw [h32]
    exact Nat.mod_eq_of_lt h
  · show e.m_vTElement.length % u16Mod = e.m_vTElement.length
    exact Nat.mod_eq_of_lt h

theorem dataSize_truncated_witness :
    ((⟨[(1 : Int), 2], 0, 0⟩ : cBufferElement Int).setDataSpan 0 2).dataSize = 2 ∧
    (⟨[(1 : Int), 2], 0, 0⟩ : cBufferElement Int).allocationSize = 2 :=
  ⟨(dataSize_truncated (⟨[(1 : Int), 2], 0, 0⟩ : cBufferElement Int) 0 2).2.1
      (by decide),
   (dataSize_truncated (⟨[(1 : Int), 2], 0, 0⟩ : cBufferElement Int) 0 2).2.2.2.2
      (by decide)⟩

/-- C10: elementRead clears only the span metadata of the slot at the
pre-advance read cursor (its spanStart and spanLength become 0, its
storage elements are untouched); every other slot and the whole
timestamp vector are unchanged — the consumed data is unmarked but not
erased. -/
theorem elementRead_frame {T : Type} (s : cThreadSafeCircularBuffer T)
    (h : s.m_u32ReadIndex < s.m_vTCircularBuffer.length) :
    (s.elementRead).1.m_vTCircularBuffer.length = s.m_vTCircularBuffer.length ∧
    (s.elementRead).1.m_vi64Timestamps_us = s.m_vi64Timestamps_us ∧
    ∀ i (hi : i < s.m_vTCircularBuffer.length)
      (hi2 : i < (s.elementRead).1.m_vTCircularBuffer.length),
      (i ≠ s.m_u32ReadIndex →
        (s.elementRead).1.m_vTCircularBuffer.get ⟨i, hi2⟩ =
          s.m_vTCircularBuffer.get ⟨i, hi⟩) ∧
      (i = s.m_u32ReadIndex →
        ((s.elementRead).1.m_vTCircularBuffer.get ⟨i, hi2⟩).m_u32DataSize = 0 ∧
        ((s.elementRead).1.m_vTCircularBuffer.get ⟨i, hi2⟩).m_u32DataStartIndex = 0 ∧
        ((s.elementRead).1.m_vTCircularBuffer.get ⟨i, hi2⟩).m_vTElement =
          (s.m_vTCircularBuffer.get ⟨i, hi⟩).m_vTElement) := by
  have hmodlen : (List.modify cBufferElement.setEmpty s.m_u32ReadIndex
      s.m_vTCircularBuffer).length = s.m_vTCircularBuffer.length :=
    List.length_modify ..
  refine ⟨hmodlen, rfl, ?_⟩
  intro i hi hi2
  constructor
  · intro hne
    have hq : (s.elementRead).1.m_vTCircularBuffer[i]? = s.m_vTCircularBuffer[i]? := by
      show (List.modify cBufferElement.setEmpty s.m_u32ReadIndex
        s.m_vTCircularBuffer)[i]? = s.m_vTCircularBuffer[i]?
      exact List.getElem?_modify_ne cBufferElement.setEmpty s.m_vTCircularBuffer
        (Ne.symm hne)
    rw [List.getElem?_eq_getElem hi2, List.getElem?_eq_getElem hi] at hq
    rw [List.get_eq_getElem, List.get_eq_getElem]
    exact Option.some.inj hq
  · intro hEq
    subst hEq
    have hq : (s.elementRead).1.m_vTCircularBuffer[s.m_u32ReadIndex]? =
        cBufferElement.setEmpty <$> s.m_vTCircularBuffer[s.m_u32ReadIndex]? := by
      show (List.modify cBufferElement.setEmpty s.m_u32ReadIndex
          s.m_vTCircularBuffer)[s.m_u32ReadIndex]? =
        cBufferElement.setEmpty <$> s.m_vTCircularBuffer[s.m_u32ReadIndex]?
      exact List.getElem?_modify_eq cBufferElement.setEmpty s.m_u32ReadIndex
        s.m_vTCircularBuffer
    rw [List.getElem?_eq_getElem hi2, List.getElem?_eq_getElem hi] at hq
    have hval : (s.elementRead).1.m_vTCircularBuffer[s.m_u32ReadIndex] =
        cBufferElement.setEmpty s.m_vTCircularBuffer[s.m_u32ReadIndex] :=
      Option.some.inj hq
    rw [List.get_eq_getElem, List.get_eq_getElem, hval]
    exact ⟨rfl, rfl, rfl⟩

theorem elementRead_frame_witness :
    (demoAfterTwoWrites.elementRead).1.m_vi64Timestamps_us =
      demoAfterTwoWrites.m_vi64Timestamps_us ∧
    (demoAfterTwoWrites.elementRead).1.m_vTCircularBuffer.get ⟨1, by decide⟩ =
      demoAfterTwoWrites.m_vTCircularBuffer.get ⟨1, by decide⟩ ∧
    ((demoAfterTwoWrites.elementRead).1.m_vTCircularBuffer.get
        ⟨0, by decide⟩).m_u32DataSize = 0 := by
  obtain ⟨h1, h2, h3⟩ := elementRead_frame demoAfterTwoWrites (by decide)
  refine ⟨h2, ?_, ?_⟩
  · exact (h3 1 (by decide) (by decide)).1 (by decide)
  · exact ((h3 0 (by decide) (by decide)).2 (by decide)).1

end AVN
